import Mathlib

/-!
Verification development for a snapshot of the pyMOR stationary linear
discretization core.  The embedding covers:

* `src/pymor/discretizations/linear.py` — `StationaryLinearDiscretization`
  (`__init__`, `copy`, `solve` and the inner `default_solver`);
* `src/pymor/discreteoperators/cg.py` — the boundary treatment of
  `DiffusionOperatorP1.assemble`.

Numeric arrays are modelled over `ℚ` with an explicit shape list and a
storage-class flag (dense vs. sparse).  Collaborators that are not part of
the source snapshot (`pymor.core.cache`, `pymor.parameters`,
`pymor.core.defaults`, the scipy/numpy solver routines) are modelled from
the specification; each such definition carries a doc comment starting
with `Modelled from the spec:`.
-/

/-- Error taxonomy of the spec (section 7); `solveNonConvergence` is part of
the vocabulary so that claims about it are statable. -/
inductive PErr where
  | parameterValidation
  | schemaConflict
  | solveFailure
  | solveNonConvergence
deriving DecidableEq

/-- A numpy/scipy array: explicit shape, row-major flattened data over `ℚ`,
and a storage-class flag (`sparse = true` models a `scipy.sparse` matrix,
`issparse` in the code). -/
structure NDArr where
  shape : List ℕ
  data : List ℚ
  sparse : Bool
deriving DecidableEq

/-- `a.size` in numpy: the product of the shape extents. -/
def NDArr.size (a : NDArr) : ℕ := a.shape.prod

/-- `a.ndim` in numpy: the number of axes. -/
def NDArr.ndim (a : NDArr) : ℕ := a.shape.length

/-- `np.squeeze`: remove all axes of extent 1, keeping the data. -/
def npSqueeze (a : NDArr) : NDArr :=
  ⟨a.shape.filter (fun s => s ≠ 1), a.data, a.sparse⟩

/-- `np.zeros(0)`: the empty dense vector. -/
def npZeros0 : NDArr := ⟨[0], [], false⟩

/-- Modelled from the spec: a `ParameterType` (pymor.parameters is not in
the source snapshot) is an ordered mapping from component names to shapes. -/
abbrev PType := List (String × List ℕ)

/-- Modelled from the spec: a `ParameterValue` maps component names to
arrays. -/
abbrev PValue := List (String × NDArr)

/-- Look a component name up in a ParameterType. -/
def ptLookup (pt : PType) (n : String) : Option (List ℕ) :=
  (pt.find? (fun e => e.1 == n)).map (fun e => e.2)

/-- The component names declared by a ParameterType. -/
def ptNames (pt : PType) : List String := pt.map (fun e => e.1)

/-- Modelled from the spec (4.2): `raw` contains a name not in the schema. -/
def hasUnknownName (pt : PType) (raw : PValue) : Bool :=
  raw.any (fun e => (ptLookup pt e.1).isNone)

/-- Modelled from the spec (4.2): a supplied array is compatible with the
declared shape when it equals it or is a broadcastable scalar. -/
def shapeCompatible (declared actual : List ℕ) : Bool :=
  actual == declared || actual == []

/-- Modelled from the spec (4.2): `raw` provides an array whose shape is
incompatible with the declared shape. -/
def hasShapeMismatch (pt : PType) (raw : PValue) : Bool :=
  raw.any (fun e =>
    match ptLookup pt e.1 with
    | some sh => !shapeCompatible sh e.2.shape
    | none => false)

/-- Modelled from the spec (4.2): a name required by the schema is missing
from `raw` (no default mechanism exists in the snapshot). -/
def hasMissing (pt : PType) (raw : PValue) : Bool :=
  pt.any (fun e => (raw.find? (fun r => r.1 == e.1)).isNone)

/-- Modelled from the spec (3): broadcastable scalar inputs are normalized
to the declared shape. -/
def normalizeEntry (sh : List ℕ) (a : NDArr) : NDArr :=
  if a.shape == [] then ⟨sh, List.replicate sh.prod (a.data.headD 0), a.sparse⟩
  else a

/-- Modelled from the spec (4.2): `parse_parameter` validates a raw mapping
against the owning ParameterType and returns a canonical ParameterValue;
an unknown name, an incompatible shape or a missing required component is a
`ParameterValidationError`. -/
def parse_parameter (pt : PType) (raw : PValue) : Except PErr PValue :=
  if hasUnknownName pt raw then .error .parameterValidation
  else if hasShapeMismatch pt raw then .error .parameterValidation
  else if hasMissing pt raw then .error .parameterValidation
  else .ok (raw.map (fun e =>
    (e.1, match ptLookup pt e.1 with
          | some sh => normalizeEntry sh e.2
          | none => e.2)))

/-- Modelled from the spec (4.1): merge two ParameterTypes; a name present
in both with different shapes is a SchemaConflict (`none`). -/
def mergePT (a b : PType) : Option PType :=
  b.foldl (fun acc e =>
    match acc with
    | none => none
    | some m =>
      match ptLookup m e.1 with
      | none => some (m ++ [e])
      | some sh => if sh == e.2 then some m else none) (some a)

/-- Modelled from the spec (4.3): `map_parameter` projects a ParameterValue
down to the component names a registered sub-entity expects (no renames are
used by the snapshot). -/
def map_parameter (mu : PValue) (names : List String) : PValue :=
  mu.filter (fun e => names.contains e.1)

/-- A `LinearDiscreteOperatorInterface` instance as `linear.py` consumes it:
dimensions, its own ParameterType, and the pure `assemble` collaborator
producing an array for a (projected) parameter. -/
structure LinOp where
  dim_source : ℕ
  dim_range : ℕ
  pt : PType
  assemble : PValue → NDArr

/-- The scipy `bicg` collaborator: given `tol` and `maxiter` it returns the
final iterate together with the convergence flag `info` (0 means converged,
a positive value means the iteration cap was reached without convergence). -/
abbrev BicgFn := ℚ → ℕ → NDArr → NDArr → NDArr × ℤ

/-- A solver strategy `solver(A, RHS)`. -/
abbrev Solver := NDArr → NDArr → Except PErr NDArr

/-- Modelled from the spec: `defaults.bicg_tol` (pymor.core.defaults is not
in the source snapshot) — the configured default tolerance. -/
def bicg_tol : ℚ := 1 / 10 ^ 12

/-- Modelled from the spec: `defaults.bicg_maxiter` — the configured default
iteration cap. -/
def bicg_maxiter : ℕ := 10000

/-- One Gaussian-elimination pivot search: find the first row with a nonzero
leading coefficient and return it with the remaining rows. -/
def pivotSplit : List (List ℚ) → Option (List ℚ × List (List ℚ))
  | [] => none
  | r :: rs =>
    if r.headD 0 ≠ 0 then some (r, rs)
    else
      match pivotSplit rs with
      | none => none
      | some (p, rest) => some (p, r :: rest)

/-- Eliminate the leading column of `r` using pivot row `p` and drop it. -/
def reduceRow (p r : List ℚ) : List ℚ :=
  List.zipWith (fun a b => a - r.headD 0 / p.headD 0 * b) r.tail p.tail

/-- Back-substitution step: solve the pivot row `p` (augmented) given the
already-computed trailing solution `xs`. -/
def backRow (p : List ℚ) (xs : List ℚ) : ℚ :=
  (p.tail.getLastD 0 - (List.zipWith (fun a b => a * b) p.tail.dropLast xs).sum)
    / p.headD 0

/-- Gaussian elimination on an augmented system with `n` unknowns; `none`
when no nonzero pivot exists (singular matrix). -/
def gauss : ℕ → List (List ℚ) → Option (List ℚ)
  | 0, _ => some []
  | Nat.succ n, rows =>
    match pivotSplit rows with
    | none => none
    | some (p, rest) =>
      match gauss n (rest.map (reduceRow p)) with
      | none => none
      | some xs => some (backRow p xs :: xs)

/-- Modelled from the spec (6): the `numpy.linalg.solve` collaborator — an
exact direct solve of `A x = b`; a singular or badly shaped system is a
`SolveFailure`. -/
def npLinalgSolve (A b : NDArr) : Except PErr NDArr :=
  match A.shape with
  | [n, m] =>
    if n = m then
      let rows := (List.range n).map
        (fun i => ((A.data.drop (i * n)).take n) ++ [b.data.getD i 0])
      match gauss n rows with
      | some xs => .ok ⟨[n], xs, false⟩
      | none => .error .solveFailure
    else .error .solveFailure
  | _ => .error .solveFailure

/-- The inner `default_solver(A, RHS)` of
`StationaryLinearDiscretization.__init__`: a sparse system goes to `bicg`
with the configured default tolerance and iteration cap, and the returned
convergence flag is discarded (`U, _ = bicg(...)`); a dense system goes to
`numpy.linalg.solve`. -/
def default_solver (bicg : BicgFn) (A RHS : NDArr) : Except PErr NDArr :=
  if A.sparse then .ok (bicg bicg_tol bicg_maxiter A RHS).1
  else npLinalgSolve A RHS

/-- The dimension asserts of `StationaryLinearDiscretization.__init__`:
`operator.dim_source == operator.dim_range == rhs.dim_source` and
`rhs.dim_range == 1`. -/
def dimsOk (operator rhsOp : LinOp) : Bool :=
  operator.dim_source == operator.dim_range
    && operator.dim_range == rhsOp.dim_source
    && rhsOp.dim_range == 1

/-- A `StationaryLinearDiscretization` after `__init__`: the two operators,
the resolved solver strategy (`solver or default_solver`), the merged
ParameterType, the solution dimension and the cache namespace identity
(Modelled from the spec: `Cachable.__init__` assigns the instance its own
cache region, represented by `nsid`). -/
structure Disc where
  operator : LinOp
  rhsOp : LinOp
  solver : Solver
  ptype : PType
  solution_dim : ℕ
  nsid : ℕ

/-- `StationaryLinearDiscretization.__init__`: check the dimension asserts,
build the merged ParameterType from the inherits record
`{operator, rhs}`, and resolve the solver (`solver or default_solver`);
`none` models a raised AssertionError or SchemaConflict. -/
def init (bicg : BicgFn) (operator rhsOp : LinOp) (osolver : Option Solver)
    (nsid : ℕ) : Option Disc :=
  if dimsOk operator rhsOp then
    match mergePT operator.pt rhsOp.pt with
    | some pt =>
      some ⟨operator, rhsOp, osolver.getD (default_solver bicg), pt,
            operator.dim_range, nsid⟩
    | none => none
  else none

/-- `StationaryLinearDiscretization.copy`: a shallow copy whose
`Cachable.__init__(c)` call gives the clone a fresh cache namespace
(Modelled from the spec: the clone gets its own cache namespace, decoupled
from the original; `fresh` is the newly allocated namespace identity). -/
def Disc.copy (d : Disc) (fresh : ℕ) : Disc :=
  { d with nsid := fresh }

/-- Lines 115–117 of `linear.py`: squeeze the assembled rhs row vector and
re-expand a zero-dimensional result to a length-1 vector
(`RHS[np.newaxis]`). -/
def prepareRHS (r : NDArr) : NDArr :=
  let R := npSqueeze r
  if R.ndim = 0 then ⟨[1], R.data, R.sparse⟩ else R

/-- Instrumentation of one `solve` call: how often the cached body was
entered, how many operator assemblies ran, how often the solver strategy
was invoked, and with which arguments. -/
structure SolveLog where
  computeEntered : ℕ
  assembleCalls : ℕ
  solverCalls : ℕ
  solverArgs : Option (NDArr × NDArr)
deriving DecidableEq

/-- The all-zero instrumentation record (nothing was computed). -/
def zeroLog : SolveLog := ⟨0, 0, 0, none⟩

/-- The body of `StationaryLinearDiscretization.solve` after parameter
parsing: assemble the system matrix under the projected parameter, return
the empty vector when the system has zero dimension, otherwise assemble and
squeeze the right-hand side and invoke the solver strategy. -/
def solveBody (d : Disc) (mu : PValue) : Except PErr NDArr × SolveLog :=
  if (d.operator.assemble (map_parameter mu (ptNames d.operator.pt))).size = 0 then
    (.ok npZeros0, ⟨1, 1, 0, none⟩)
  else
    (d.solver (d.operator.assemble (map_parameter mu (ptNames d.operator.pt)))
       (prepareRHS (d.rhsOp.assemble (map_parameter mu (ptNames d.rhsOp.pt)))),
     ⟨1, 2, 1, some (d.operator.assemble (map_parameter mu (ptNames d.operator.pt)),
                     prepareRHS (d.rhsOp.assemble (map_parameter mu (ptNames d.rhsOp.pt))))⟩)

/-- The computation cache: entries keyed by (namespace identity, parsed
parameter fingerprint).  Modelled from the spec (4.5): content-addressable
store shared by all Cachable instances. -/
abbrev CacheStore := List ((ℕ × PValue) × NDArr)

/-- Association-list lookup in the cache store. -/
def lookupCache : CacheStore → ℕ × PValue → Option NDArr
  | [], _ => none
  | (k', v) :: rest, k => if k' = k then some v else lookupCache rest k

/-- The observable outcome of one `solve` call: the result, the cache store
afterwards, and the instrumentation. -/
structure SolveOutcome where
  result : Except PErr NDArr
  store : CacheStore
  log : SolveLog

/-- `StationaryLinearDiscretization.solve` with its `@cached` wrapper
(Modelled from the spec (4.5–4.7): pymor.core.cache is not in the source
snapshot — the call is keyed on the discretization's own fingerprint plus
the parsed parameter's fingerprint; a hit returns the stored value without
recomputation, a miss computes once and stores). -/
def solve (d : Disc) (raw : PValue) (st : CacheStore) : SolveOutcome :=
  match parse_parameter d.ptype raw with
  | .error e => ⟨.error e, st, zeroLog⟩
  | .ok mu =>
    match lookupCache st (d.nsid, mu) with
    | some v => ⟨.ok v, st, zeroLog⟩
    | none =>
      match solveBody d mu with
      | (.ok v, log) => ⟨.ok v, ((d.nsid, mu), v) :: st, log⟩
      | (.error e, log) => ⟨.error e, st, log⟩

/-- The grid data `DiffusionOperatorP1.assemble` reads: the number of
codim-0 entities, the number of local shape functions (`g.dim + 1`), the
number of global DOFs (`g.size(g.dim)`) and the local-to-global DOF map
`g.subentities(0, g.dim)`. -/
structure GridData where
  numElements : ℕ
  localDofs : ℕ
  numDofs : ℕ
  subent : ℕ → ℕ → ℕ

/-- The raw COO triplets of the local stiffness integrals: for element `e`
and local indices `p, q` the entry `(SF_I0, SF_I1, SF_INTS)` is
`(subent e p, subent e q, vals e p q)`; the numeric values `vals` come from
the quadrature collaborator, which is outside the core. -/
def baseTriplets (g : GridData) (vals : ℕ → ℕ → ℕ → ℚ) : List (ℕ × ℕ × ℚ) :=
  (List.range g.numElements).flatMap (fun e =>
    (List.range g.localDofs).flatMap (fun p =>
      (List.range g.localDofs).map (fun q => (g.subent e p, g.subent e q, vals e p q))))

/-- `np.where(dirichlet_mask[SF_I0], 0, SF_INTS)` of line 240: zero a
triplet's value when its row DOF is Dirichlet. -/
def rowCleared (dd : List ℕ) (t : ℕ × ℕ × ℚ) : ℕ × ℕ × ℚ :=
  if t.1 ∈ dd then (t.1, t.2.1, 0) else t

/-- `np.where(dirichlet_mask[SF_I1], 0, SF_INTS)` of line 242: zero a
triplet's value when its column DOF is Dirichlet. -/
def colCleared (dd : List ℕ) (t : ℕ × ℕ × ℚ) : ℕ × ℕ × ℚ :=
  if t.2.1 ∈ dd then (t.1, t.2.1, 0) else t

/-- The boundary treatment of `DiffusionOperatorP1.assemble` (lines
238–247): zero every entry whose row DOF is Dirichlet, optionally
(`dirichlet_clear_columns`) zero entries whose column DOF is Dirichlet, and
unless `dirichlet_clear_diag` append a unit entry on the diagonal of every
Dirichlet DOF. -/
def dirichletTriplets (g : GridData) (dd : List ℕ) (vals : ℕ → ℕ → ℕ → ℚ)
    (clearColumns clearDiag : Bool) : List (ℕ × ℕ × ℚ) :=
  if dd.isEmpty then baseTriplets g vals
  else
    let t1 := (baseTriplets g vals).map (rowCleared dd)
    let t2 := if clearColumns then t1.map (colCleared dd) else t1
    if clearDiag then t2 else t2 ++ dd.map (fun i => (i, i, (1 : ℚ)))

/-- `scipy.sparse.coo_matrix` semantics: the matrix entry at `(i, j)` is the
sum of all triplet values with these coordinates. -/
def cooEntry (trips : List (ℕ × ℕ × ℚ)) (i j : ℕ) : ℚ :=
  (trips.map (fun t => if t.1 = i ∧ t.2.1 = j then t.2.2 else 0)).sum

/-- `DiffusionOperatorP1.assemble` as an entry function of the assembled
system matrix, with the Dirichlet DOF list `dd` standing for
`boundary_info.dirichlet_boundaries(g.dim)` (and its mask). -/
def assembleDiffusion (g : GridData) (dd : List ℕ) (vals : ℕ → ℕ → ℕ → ℚ)
    (clearColumns clearDiag : Bool) (i j : ℕ) : ℚ :=
  cooEntry (dirichletTriplets g dd vals clearColumns clearDiag) i j


/-- Characterization: `solve` on a parameter that fails validation. -/
theorem solve_parse_error (d : Disc) (raw : PValue) (st : CacheStore) (e : PErr)
    (hp : parse_parameter d.ptype raw = .error e) :
    solve d raw st = ⟨.error e, st, zeroLog⟩ := by
  simp only [solve, hp]

/-- Characterization: `solve` on a cache hit returns the stored value with
no computation. -/
theorem solve_hit (d : Disc) (raw : PValue) (st : CacheStore) (mu : PValue) (v : NDArr)
    (hp : parse_parameter d.ptype raw = .ok mu)
    (hc : lookupCache st (d.nsid, mu) = some v) :
    solve d raw st = ⟨.ok v, st, zeroLog⟩ := by
  simp only [solve, hp, hc]

/-- Characterization: `solve` on a cache miss with a successful body stores
the result under the discretization's namespace. -/
theorem solve_miss (d : Disc) (raw : PValue) (st : CacheStore) (mu : PValue) (v : NDArr)
    (log : SolveLog)
    (hp : parse_parameter d.ptype raw = .ok mu)
    (hc : lookupCache st (d.nsid, mu) = none)
    (hb : solveBody d mu = (.ok v, log)) :
    solve d raw st = ⟨.ok v, ((d.nsid, mu), v) :: st, log⟩ := by
  simp only [solve, hp, hc, hb]

/-- Characterization: `solve` on a cache miss with a failing body surfaces
the error and stores nothing. -/
theorem solve_miss_error (d : Disc) (raw : PValue) (st : CacheStore) (mu : PValue) (e : PErr)
    (log : SolveLog)
    (hp : parse_parameter d.ptype raw = .ok mu)
    (hc : lookupCache st (d.nsid, mu) = none)
    (hb : solveBody d mu = (.error e, log)) :
    solve d raw st = ⟨.error e, st, log⟩ := by
  simp only [solve, hp, hc, hb]

/-- The body of `solve` reports exactly one entry into the assemble/solve
computation. -/
theorem solveBody_computeEntered (d : Disc) (mu : PValue) :
    (solveBody d mu).2.computeEntered = 1 := by
  unfold solveBody
  split <;> rfl

/-- A trivial bicg oracle used by fixtures whose solves never take the
sparse path (it reports convergence). -/
def bicg0 : BicgFn := fun _ _ _ _ => (npZeros0, 0)

/-- Fixture: a non-parametric operator assembling the dense matrix
`diag(1, 2, 3)`. -/
def opDiag : LinOp := ⟨3, 3, [], fun _ => ⟨[3, 3], [1, 0, 0, 0, 2, 0, 0, 0, 3], false⟩⟩

/-- Fixture: a non-parametric rhs functional assembling the row vector
`[1, 1, 1]`. -/
def rhsOnes : LinOp := ⟨3, 1, [], fun _ => ⟨[1, 3], [1, 1, 1], false⟩⟩

/-- Fixture: the discretization `init bicg0 opDiag rhsOnes none 0` builds
(solver defaulted, empty ParameterType, namespace 0). -/
def dC4 : Disc := ⟨opDiag, rhsOnes, default_solver bicg0, [], 3, 0⟩

/-- The exact solution of `diag(1,2,3) x = [1,1,1]`. -/
def solC4 : NDArr := ⟨[3], [1, 1/2, 1/3], false⟩

/-- Claim C4: a discretization with `dim_source = dim_range = 3`, system
matrix `diag(1,2,3)` and rhs `[1,1,1]`, solved under the empty parameter,
returns exactly `[1, 1/2, 1/3]` through the dense direct path (the
assembled matrix is dense, the solver ran once), and the second `solve`
with the same parameter returns the identical cached result with the
solver not re-invoked. -/
theorem claimC4_concrete_diag :
    init bicg0 opDiag rhsOnes none 0 = some dC4 ∧
    (dC4.operator.assemble []).sparse = false ∧
    solve dC4 [] [] =
      ⟨.ok solC4, [((0, []), solC4)],
        ⟨1, 2, 1, some (⟨[3, 3], [1, 0, 0, 0, 2, 0, 0, 0, 3], false⟩,
                        ⟨[3], [1, 1, 1], false⟩)⟩⟩ ∧
    solve dC4 [] [((0, []), solC4)] = ⟨.ok solC4, [((0, []), solC4)], zeroLog⟩ := by
  refine ⟨rfl, rfl, ?_, rfl⟩
  norm_num [solve, solveBody, parse_parameter, hasUnknownName, hasShapeMismatch, hasMissing,
    lookupCache, map_parameter, ptNames, dC4, opDiag, rhsOnes, NDArr.size, prepareRHS, npSqueeze,
    NDArr.ndim, default_solver, npLinalgSolve, gauss, pivotSplit, reduceRow, backRow,
    List.range_succ, solC4]

/-- Claim C2: starting from an empty cache, a successful `solve` enters the
assemble/solve computation exactly once, and the repeated `solve` with the
identical parameter and unchanged state is served from the cache: same
result, unchanged store, and zero compute/assembly/solver invocations. -/
theorem claimC2_solve_cached_once (d : Disc) (raw : PValue) (v : NDArr)
    (h : (solve d raw []).result = .ok v) :
    (solve d raw []).log.computeEntered = 1 ∧
    solve d raw (solve d raw []).store = ⟨.ok v, (solve d raw []).store, zeroLog⟩ := by
  cases hp : parse_parameter d.ptype raw with
  | error e =>
    rw [solve_parse_error d raw [] e hp] at h
    exact absurd h (by simp)
  | ok mu =>
    have hc : lookupCache [] (d.nsid, mu) = none := rfl
    rcases hb : solveBody d mu with ⟨r, log⟩
    cases r with
    | error e =>
      rw [solve_miss_error d raw [] mu e log hp hc hb] at h
      exact absurd h (by simp)
    | ok w =>
      have hs := solve_miss d raw [] mu w log hp hc hb
      rw [hs] at h ⊢
      simp only at h
      cases h
      have hce := solveBody_computeEntered d mu
      rw [hb] at hce
      refine ⟨hce, ?_⟩
      exact solve_hit d raw (((d.nsid, mu), v) :: []) mu v hp (by
        simp [lookupCache])

/-- Claim C5: when the assembled system matrix has size 0, `solve` returns
the empty vector without invoking the solver strategy. -/
theorem claimC5_zero_dim (d : Disc) (raw : PValue) (st : CacheStore) (mu : PValue)
    (hp : parse_parameter d.ptype raw = .ok mu)
    (hc : lookupCache st (d.nsid, mu) = none)
    (h0 : (d.operator.assemble (map_parameter mu (ptNames d.operator.pt))).size = 0) :
    (solve d raw st).result = .ok npZeros0 ∧
    (solve d raw st).log.solverCalls = 0 ∧
    (solve d raw st).log.solverArgs = none := by
  have hb : solveBody d mu = (.ok npZeros0, ⟨1, 1, 0, none⟩) := by
    unfold solveBody
    rw [if_pos h0]
  rw [solve_miss d raw st mu npZeros0 ⟨1, 1, 0, none⟩ hp hc hb]
  exact ⟨rfl, rfl, rfl⟩

/-- Fixture: a zero-dimensional operator. -/
def op0 : LinOp := ⟨0, 0, [], fun _ => ⟨[0, 0], [], false⟩⟩

/-- Fixture: the rhs functional over the zero-dimensional space. -/
def rhs0 : LinOp := ⟨0, 1, [], fun _ => ⟨[1, 0], [], false⟩⟩

/-- Fixture: the zero-dimensional discretization. -/
def dC5 : Disc := ⟨op0, rhs0, default_solver bicg0, [], 0, 0⟩

/-- Witness for claim C5 at the zero-dimensional fixture. -/
theorem claimC5_zero_dim_witness :
    (solve dC5 [] []).result = .ok npZeros0 ∧
    (solve dC5 [] []).log.solverCalls = 0 ∧
    (solve dC5 [] []).log.solverArgs = none :=
  claimC5_zero_dim dC5 [] [] [] rfl rfl rfl

/-- Witness for claim C2 at the concrete diagonal fixture. -/
theorem claimC2_solve_cached_once_witness :
    (solve dC4 [] []).log.computeEntered = 1 ∧
    solve dC4 [] (solve dC4 [] []).store = ⟨.ok solC4, (solve dC4 [] []).store, zeroLog⟩ :=
  claimC2_solve_cached_once dC4 [] solC4 (by
    norm_num [solve, solveBody, parse_parameter, hasUnknownName, hasShapeMismatch, hasMissing,
      lookupCache, map_parameter, ptNames, dC4, opDiag, rhsOnes, NDArr.size, prepareRHS, npSqueeze,
      NDArr.ndim, default_solver, npLinalgSolve, gauss, pivotSplit, reduceRow, backRow,
      List.range_succ, solC4])

/-- The solver stored by `__init__` is `solver or default_solver`. -/
theorem init_solver (bicg : BicgFn) (operator rhsOp : LinOp) (osolver : Option Solver)
    (nsid : ℕ) (d : Disc) (h : init bicg operator rhsOp osolver nsid = some d) :
    d.solver = osolver.getD (default_solver bicg) := by
  unfold init at h
  by_cases hd : dimsOk operator rhsOp = true
  · rw [if_pos hd] at h
    cases hm : mergePT operator.pt rhsOp.pt with
    | none => rw [hm] at h; cases h
    | some pt => rw [hm] at h; cases h; rfl
  · rw [if_neg hd] at h
    cases h

/-- Whenever the body of `solve` recorded solver arguments, its result is
the stored solver strategy applied to exactly these arguments. -/
theorem solveBody_result_of_solverArgs (d : Disc) (mu : PValue) (A R : NDArr)
    (h : (solveBody d mu).2.solverArgs = some (A, R)) :
    (solveBody d mu).1 = d.solver A R := by
  unfold solveBody at h ⊢
  by_cases h0 : (d.operator.assemble (map_parameter mu (ptNames d.operator.pt))).size = 0
  · rw [if_pos h0] at h
    exact absurd h (by simp)
  · rw [if_neg h0] at h ⊢
    simp only [Option.some.injEq, Prod.mk.injEq] at h
    rw [← h.1, ← h.2]

/-- Claim C1: a discretization constructed with `solver=None` stores the
default dispatch: on a sparse system matrix the iterative `bicg` with the
configured default tolerance and iteration cap, on a dense one the direct
`numpy.linalg.solve`; the body of `solve` applies the stored strategy to
the assembled matrix and squeezed rhs; and an explicitly supplied solver
is stored unchanged and used by every `solve`, for every parameter. -/
theorem claimC1_solver_dispatch (bicg : BicgFn) (operator rhsOp : LinOp) (s : Solver)
    (n1 n2 : ℕ) (d dE : Disc)
    (hd : init bicg operator rhsOp none n1 = some d)
    (hdE : init bicg operator rhsOp (some s) n2 = some dE) :
    d.solver = default_solver bicg ∧
    (∀ A R : NDArr, A.sparse = true →
      d.solver A R = .ok (bicg bicg_tol bicg_maxiter A R).1) ∧
    (∀ A R : NDArr, A.sparse = false → d.solver A R = npLinalgSolve A R) ∧
    (∀ mu A R, (solveBody d mu).2.solverArgs = some (A, R) →
      (solveBody d mu).1 = default_solver bicg A R) ∧
    dE.solver = s ∧
    (∀ mu A R, (solveBody dE mu).2.solverArgs = some (A, R) →
      (solveBody dE mu).1 = s A R) := by
  have hs : d.solver = default_solver bicg := init_solver bicg operator rhsOp none n1 d hd
  have hsE : dE.solver = s := init_solver bicg operator rhsOp (some s) n2 dE hdE
  refine ⟨hs, ?_, ?_, ?_, hsE, ?_⟩
  · intro A R hsp
    rw [hs]
    simp [default_solver, hsp]
  · intro A R hsp
    rw [hs]
    simp [default_solver, hsp]
  · intro mu A R h
    rw [solveBody_result_of_solverArgs d mu A R h, hs]
  · intro mu A R h
    rw [solveBody_result_of_solverArgs dE mu A R h, hsE]

/-- Fixture: an explicitly supplied solver strategy. -/
def sC1 : Solver := fun _ _ => .ok npZeros0

/-- Fixture: the discretization built with the explicit solver `sC1`. -/
def dC1E : Disc := ⟨opDiag, rhsOnes, sC1, [], 3, 5⟩

/-- Fixture: a sparse 2×2 identity system matrix. -/
def Asp : NDArr := ⟨[2, 2], [1, 0, 0, 1], true⟩

/-- Fixture: a plain right-hand-side vector of length 2. -/
def Rw : NDArr := ⟨[2], [1, 1], false⟩

/-- Witness for claim C1 at the concrete fixtures. -/
theorem claimC1_solver_dispatch_witness :
    dC4.solver = default_solver bicg0 ∧
    dC4.solver Asp Rw = .ok (bicg0 bicg_tol bicg_maxiter Asp Rw).1 ∧
    dC4.solver ⟨[3, 3], [1, 0, 0, 0, 2, 0, 0, 0, 3], false⟩ Rw
      = npLinalgSolve ⟨[3, 3], [1, 0, 0, 0, 2, 0, 0, 0, 3], false⟩ Rw ∧
    dC1E.solver = sC1 ∧
    (solveBody dC1E []).1
      = sC1 ⟨[3, 3], [1, 0, 0, 0, 2, 0, 0, 0, 3], false⟩ ⟨[3], [1, 1, 1], false⟩ := by
  have h := claimC1_solver_dispatch bicg0 opDiag rhsOnes sC1 0 5 dC4 dC1E rfl rfl
  exact ⟨h.1, h.2.1 Asp Rw rfl, h.2.2.1 _ Rw rfl, h.2.2.2.2.1, h.2.2.2.2.2 [] _ _ rfl⟩

/-- Claim C6: `__init__` fails whenever the dimension relations
`operator.dim_source == operator.dim_range == rhs.dim_source` and
`rhs.dim_range == 1` are violated, and every successfully constructed
discretization satisfies them. -/
theorem claimC6_init_dims (bicg : BicgFn) (operator rhsOp : LinOp) (osolver : Option Solver)
    (nsid : ℕ) :
    (¬(operator.dim_source = operator.dim_range ∧ operator.dim_range = rhsOp.dim_source ∧
        rhsOp.dim_range = 1) → init bicg operator rhsOp osolver nsid = none) ∧
    (∀ d, init bicg operator rhsOp osolver nsid = some d →
      d.operator.dim_source = d.operator.dim_range ∧
        d.operator.dim_range = d.rhsOp.dim_source ∧ d.rhsOp.dim_range = 1) := by
  constructor
  · intro hviol
    unfold init
    have hd : ¬ dimsOk operator rhsOp = true := by
      intro ht
      simp only [dimsOk, Bool.and_eq_true, beq_iff_eq] at ht
      exact hviol ⟨ht.1.1, ht.1.2, ht.2⟩
    rw [if_neg hd]
  · intro d h
    unfold init at h
    by_cases hd : dimsOk operator rhsOp = true
    · rw [if_pos hd] at h
      simp only [dimsOk, Bool.and_eq_true, beq_iff_eq] at hd
      cases hm : mergePT operator.pt rhsOp.pt with
      | none => rw [hm] at h; cases h
      | some pt =>
        rw [hm] at h
        cases h
        exact ⟨hd.1.1, hd.1.2, hd.2⟩
    · rw [if_neg hd] at h
      cases h

/-- Fixture: an operator with mismatched dimensions (2 ≠ 3). -/
def opBad : LinOp := ⟨2, 3, [], fun _ => npZeros0⟩

/-- Witness for claim C6: the bad operator is rejected, the good fixture
satisfies the invariant. -/
theorem claimC6_init_dims_witness :
    init bicg0 opBad rhsOnes none 0 = none ∧
    (dC4.operator.dim_source = dC4.operator.dim_range ∧
      dC4.operator.dim_range = dC4.rhsOp.dim_source ∧ dC4.rhsOp.dim_range = 1) :=
  ⟨(claimC6_init_dims bicg0 opBad rhsOnes none 0).1 (fun hcon => absurd hcon.1 (by decide)),
   (claimC6_init_dims bicg0 opDiag rhsOnes none 0).2 dC4 rfl⟩

/-- Fixture: the iterate a failing bicg run ends with. -/
def iterBad : NDArr := ⟨[2], [5, 7], false⟩

/-- Fixture: a bicg oracle that always stops at the iteration cap without
converging (`info = 30 > 0` in scipy's convention). -/
def bicgBad : BicgFn := fun _ _ _ _ => (iterBad, 30)

/-- Fixture: an operator assembling a sparse system matrix. -/
def opSparse : LinOp := ⟨2, 2, [], fun _ => ⟨[2, 2], [1, 0, 0, 1], true⟩⟩

/-- Fixture: the rhs functional for the sparse fixture. -/
def rhsC3 : LinOp := ⟨2, 1, [], fun _ => ⟨[1, 2], [1, 1], false⟩⟩

/-- Fixture: the sparse-path discretization wired to the non-converging
bicg oracle. -/
def dC3 : Disc := ⟨opSparse, rhsC3, default_solver bicgBad, [], 2, 0⟩

/-- Counterexample to claim C3: the bicg collaborator reports
non-convergence (`info = 30`), yet `solve` returns the non-converged
iterate as a successful result and raises no error at all — in particular
no `SolveNonConvergence`. -/
theorem claimC3_counterexample :
    init bicgBad opSparse rhsC3 none 0 = some dC3 ∧
    (bicgBad bicg_tol bicg_maxiter (opSparse.assemble [])
        (prepareRHS (rhsC3.assemble []))).2 = 30 ∧
    (solve dC3 [] []).result = .ok iterBad ∧
    ∀ e : PErr, (solve dC3 [] []).result ≠ .error e := by
  refine ⟨rfl, rfl, rfl, ?_⟩
  intro e h
  rw [show (solve dC3 [] []).result = .ok iterBad from rfl] at h
  exact Except.noConfusion h

/-- Claim C3 (amended): on a sparse system matrix the default solver
returns the iterate produced by `bicg` unconditionally — the convergence
flag is discarded (`U, _ = bicg(...)`), so non-convergence within the
iteration cap is never surfaced as a `SolveNonConvergence` condition. -/
theorem claimC3_amended_flag_discarded (bicg : BicgFn) (A R : NDArr)
    (h : A.sparse = true) :
    default_solver bicg A R = .ok (bicg bicg_tol bicg_maxiter A R).1 := by
  simp [default_solver, h]

/-- Witness for the amended claim C3 at the non-converging oracle. -/
theorem claimC3_amended_flag_discarded_witness :
    default_solver bicgBad Asp Rw = .ok (bicgBad bicg_tol bicg_maxiter Asp Rw).1 :=
  claimC3_amended_flag_discarded bicgBad Asp Rw rfl

/-- A `solve` call never touches cache entries outside the solving
discretization's own namespace. -/
theorem solve_store_other (d : Disc) (raw : PValue) (st : CacheStore) (n : ℕ) (k : PValue)
    (hn : n ≠ d.nsid) :
    lookupCache (solve d raw st).store (n, k) = lookupCache st (n, k) := by
  cases hp : parse_parameter d.ptype raw with
  | error e => rw [solve_parse_error d raw st e hp]
  | ok mu =>
    cases hc : lookupCache st (d.nsid, mu) with
    | some v => rw [solve_hit d raw st mu v hp hc]
    | none =>
      rcases hb : solveBody d mu with ⟨r, log⟩
      cases r with
      | error e => rw [solve_miss_error d raw st mu e log hp hc hb]
      | ok v =>
        rw [solve_miss d raw st mu v log hp hc hb]
        show lookupCache (((d.nsid, mu), v) :: st) (n, k) = lookupCache st (n, k)
        simp only [lookupCache]
        rw [if_neg (fun hk => hn (congrArg Prod.fst hk).symm)]

/-- Claim C7: `copy()` yields a discretization with its own fresh cache
namespace: solves on the copy leave every entry of the original's
namespace (indeed of every other namespace) unchanged, and solves on the
original leave the copy's namespace unchanged. -/
theorem claimC7_copy_cache_independent (d : Disc) (fresh : ℕ) (hne : fresh ≠ d.nsid)
    (raw : PValue) (st : CacheStore) :
    (d.copy fresh).nsid = fresh ∧
    (∀ k, lookupCache (solve (d.copy fresh) raw st).store (d.nsid, k)
        = lookupCache st (d.nsid, k)) ∧
    (∀ k, lookupCache (solve d raw st).store (fresh, k) = lookupCache st (fresh, k)) ∧
    (∀ n k, n ≠ fresh →
      lookupCache (solve (d.copy fresh) raw st).store (n, k) = lookupCache st (n, k)) := by
  refine ⟨rfl, ?_, ?_, ?_⟩
  · intro k
    exact solve_store_other (d.copy fresh) raw st d.nsid k (fun h => hne h.symm)
  · intro k
    exact solve_store_other d raw st fresh k hne
  · intro n k hn
    exact solve_store_other (d.copy fresh) raw st n k hn

/-- Witness for claim C7 at the concrete diagonal fixture with fresh
namespace 1. -/
theorem claimC7_copy_cache_independent_witness :
    (dC4.copy 1).nsid = 1 ∧
    lookupCache (solve (dC4.copy 1) [] []).store (dC4.nsid, [])
      = lookupCache [] (dC4.nsid, []) ∧
    lookupCache (solve dC4 [] []).store (1, []) = lookupCache [] (1, []) ∧
    lookupCache (solve (dC4.copy 1) [] []).store (7, []) = lookupCache [] (7, []) := by
  have h := claimC7_copy_cache_independent dC4 1 (by decide) [] []
  exact ⟨h.1, h.2.1 [], h.2.2.1 [], h.2.2.2 7 [] (by decide)⟩

/-- Claim C8: a parameter failing validation (unknown name, incompatible
shape, or missing required component) surfaces a
`ParameterValidationError` from `solve` before any computation: the store
is unchanged and no assembly or solver invocation happens. -/
theorem claimC8_validation_before_assembly (d : Disc) (raw : PValue) (st : CacheStore)
    (h : hasUnknownName d.ptype raw = true ∨ hasShapeMismatch d.ptype raw = true ∨
      hasMissing d.ptype raw = true) :
    parse_parameter d.ptype raw = .error .parameterValidation ∧
    solve d raw st = ⟨.error .parameterValidation, st, zeroLog⟩ ∧
    (solve d raw st).log.assembleCalls = 0 ∧
    (solve d raw st).log.solverCalls = 0 := by
  have hp : parse_parameter d.ptype raw = .error .parameterValidation := by
    unfold parse_parameter
    rcases h with h | h | h
    · rw [if_pos h]
    · by_cases h1 : hasUnknownName d.ptype raw = true
      · rw [if_pos h1]
      · rw [if_neg h1, if_pos h]
    · by_cases h1 : hasUnknownName d.ptype raw = true
      · rw [if_pos h1]
      · rw [if_neg h1]
        by_cases h2 : hasShapeMismatch d.ptype raw = true
        · rw [if_pos h2]
        · rw [if_neg h2, if_pos h]
  rw [solve_parse_error d raw st .parameterValidation hp]
  exact ⟨hp, rfl, rfl, rfl⟩

/-- Fixture: a parametric operator declaring the scalar component
`diffusion`. -/
def opParam : LinOp :=
  ⟨3, 3, [("diffusion", [])], fun _ => ⟨[3, 3], [1, 0, 0, 0, 2, 0, 0, 0, 3], false⟩⟩

/-- Fixture: the discretization with merged ParameterType
`{diffusion: ()}`. -/
def dC8 : Disc := ⟨opParam, rhsOnes, default_solver bicg0, [("diffusion", [])], 3, 2⟩

/-- Fixture: a raw parameter naming an unknown component. -/
def rawBad : PValue := [("conductivity", ⟨[], [1], false⟩)]

/-- Witness for claim C8 at the parametric fixture and an unknown-name
parameter. -/
theorem claimC8_validation_before_assembly_witness :
    parse_parameter dC8.ptype rawBad = .error .parameterValidation ∧
    solve dC8 rawBad [] = ⟨.error .parameterValidation, [], zeroLog⟩ ∧
    (solve dC8 rawBad []).log.assembleCalls = 0 ∧
    (solve dC8 rawBad []).log.solverCalls = 0 :=
  claimC8_validation_before_assembly dC8 rawBad [] (Or.inl (by decide))

/-- Squeezing a `(1, n)` row vector yields the one-dimensional vector of
length `n` with the same data; in the edge case `n = 1` the squeeze
produces a zero-dimensional array first, which is re-expanded. -/
theorem prepareRHS_shape (r : NDArr) (n : ℕ) (h : r.shape = [1, n]) :
    (prepareRHS r).shape = [n] ∧ (prepareRHS r).ndim = 1 ∧ (prepareRHS r).data = r.data ∧
    (n = 1 → (npSqueeze r).shape = []) := by
  by_cases h1 : n = 1
  · subst h1
    simp [prepareRHS, npSqueeze, NDArr.ndim, h]
  · simp [prepareRHS, npSqueeze, NDArr.ndim, h, h1]

/-- Claim C10: for a nonzero-dimensional system, the body of `solve` passes
the solver a one-dimensional right-hand side: the assembled `(1, n)` row
vector squeezed to shape `(n,)` with the data untouched, where in the edge
case `n = 1` the zero-dimensional squeeze result is re-expanded to a
length-1 vector. -/
theorem claimC10_rhs_one_dimensional (d : Disc) (mu : PValue) (n : ℕ) (hn : n ≠ 0)
    (hA : (d.operator.assemble (map_parameter mu (ptNames d.operator.pt))).shape = [n, n])
    (hR : (d.rhsOp.assemble (map_parameter mu (ptNames d.rhsOp.pt))).shape = [1, n]) :
    (solveBody d mu).2.solverArgs
      = some (d.operator.assemble (map_parameter mu (ptNames d.operator.pt)),
              prepareRHS (d.rhsOp.assemble (map_parameter mu (ptNames d.rhsOp.pt)))) ∧
    (prepareRHS (d.rhsOp.assemble (map_parameter mu (ptNames d.rhsOp.pt)))).shape = [n] ∧
    (prepareRHS (d.rhsOp.assemble (map_parameter mu (ptNames d.rhsOp.pt)))).ndim = 1 ∧
    (prepareRHS (d.rhsOp.assemble (map_parameter mu (ptNames d.rhsOp.pt)))).data
      = (d.rhsOp.assemble (map_parameter mu (ptNames d.rhsOp.pt))).data ∧
    (n = 1 → (npSqueeze (d.rhsOp.assemble (map_parameter mu (ptNames d.rhsOp.pt)))).shape
      = []) := by
  have hps := prepareRHS_shape (d.rhsOp.assemble (map_parameter mu (ptNames d.rhsOp.pt))) n hR
  have hsz : ¬ (d.operator.assemble (map_parameter mu (ptNames d.operator.pt))).size = 0 := by
    simp [NDArr.size, hA, Nat.mul_eq_zero, hn]
  refine ⟨?_, hps.1, hps.2.1, hps.2.2.1, hps.2.2.2⟩
  unfold solveBody
  rw [if_neg hsz]

/-- Fixture: a one-dimensional operator (the `dim_source == 1` edge case). -/
def op1 : LinOp := ⟨1, 1, [], fun _ => ⟨[1, 1], [2], false⟩⟩

/-- Fixture: the rhs functional of the one-dimensional fixture. -/
def rhs1 : LinOp := ⟨1, 1, [], fun _ => ⟨[1, 1], [6], false⟩⟩

/-- Fixture: the one-dimensional discretization. -/
def dC10 : Disc := ⟨op1, rhs1, default_solver bicg0, [], 1, 4⟩

/-- Witness for claim C10 at the one-dimensional edge-case fixture. -/
theorem claimC10_rhs_one_dimensional_witness :
    (solveBody dC10 []).2.solverArgs
      = some (dC10.operator.assemble (map_parameter [] (ptNames dC10.operator.pt)),
              prepareRHS (dC10.rhsOp.assemble (map_parameter [] (ptNames dC10.rhsOp.pt)))) ∧
    (prepareRHS (dC10.rhsOp.assemble (map_parameter [] (ptNames dC10.rhsOp.pt)))).shape
      = [1] ∧
    (prepareRHS (dC10.rhsOp.assemble (map_parameter [] (ptNames dC10.rhsOp.pt)))).ndim = 1 ∧
    (prepareRHS (dC10.rhsOp.assemble (map_parameter [] (ptNames dC10.rhsOp.pt)))).data
      = (dC10.rhsOp.assemble (map_parameter [] (ptNames dC10.rhsOp.pt))).data ∧
    ((1 : ℕ) = 1 → (npSqueeze (dC10.rhsOp.assemble
        (map_parameter [] (ptNames dC10.rhsOp.pt)))).shape = []) :=
  claimC10_rhs_one_dimensional dC10 [] 1 (by decide) rfl rfl

/-- COO summation distributes over triplet-list concatenation. -/
theorem cooEntry_append (l1 l2 : List (ℕ × ℕ × ℚ)) (i j : ℕ) :
    cooEntry (l1 ++ l2) i j = cooEntry l1 i j + cooEntry l2 i j := by
  simp [cooEntry]

/-- COO summation over a cons cell. -/
theorem cooEntry_cons (t : ℕ × ℕ × ℚ) (l : List (ℕ × ℕ × ℚ)) (i j : ℕ) :
    cooEntry (t :: l) i j
      = (if t.1 = i ∧ t.2.1 = j then t.2.2 else 0) + cooEntry l i j := by
  simp [cooEntry]

/-- A triplet list whose row-`i` entries all carry value 0 contributes
nothing to row `i`. -/
theorem cooEntry_eq_zero_row (l : List (ℕ × ℕ × ℚ)) (i j : ℕ)
    (h : ∀ t ∈ l, t.1 = i → t.2.2 = 0) : cooEntry l i j = 0 := by
  apply List.sum_eq_zero
  intro x hx
  rcases List.mem_map.1 hx with ⟨t, ht, rfl⟩
  split_ifs with hc
  · exact h t ht hc.1
  · rfl

/-- A triplet list whose column-`j` entries all carry value 0 contributes
nothing to column `j`. -/
theorem cooEntry_eq_zero_col (l : List (ℕ × ℕ × ℚ)) (i j : ℕ)
    (h : ∀ t ∈ l, t.2.1 = j → t.2.2 = 0) : cooEntry l i j = 0 := by
  apply List.sum_eq_zero
  intro x hx
  rcases List.mem_map.1 hx with ⟨t, ht, rfl⟩
  split_ifs with hc
  · exact h t ht hc.2
  · rfl

/-- The appended Dirichlet unit entries contribute nothing off the
diagonal. -/
theorem cooEntry_diag_off (dd : List ℕ) (i j : ℕ) (hij : i ≠ j) :
    cooEntry (dd.map (fun x => (x, x, (1 : ℚ)))) i j = 0 := by
  apply List.sum_eq_zero
  intro y hy
  rcases List.mem_map.1 hy with ⟨t, ht, rfl⟩
  rcases List.mem_map.1 ht with ⟨x, hx, rfl⟩
  split_ifs with hc
  · exact absurd (hc.1.symm.trans hc.2) hij
  · rfl

/-- The appended Dirichlet unit entries contribute exactly 1 on the
diagonal of a listed Dirichlet DOF, assuming each DOF is listed once. -/
theorem cooEntry_diag_self (dd : List ℕ) (i : ℕ) :
    dd.Nodup → i ∈ dd → cooEntry (dd.map (fun x => (x, x, (1 : ℚ)))) i i = 1 := by
  induction dd with
  | nil => intro _ hi; exact absurd hi (List.not_mem_nil i)
  | cons a as ih =>
    intro hnd hi
    rw [List.nodup_cons] at hnd
    rw [List.map_cons, cooEntry_cons]
    by_cases hai : a = i
    · subst hai
      have hz : cooEntry (List.map (fun x => (x, x, (1 : ℚ))) as) a a = 0 := by
        apply List.sum_eq_zero
        intro y hy
        rcases List.mem_map.1 hy with ⟨t, ht, rfl⟩
        rcases List.mem_map.1 ht with ⟨x, hx, rfl⟩
        split_ifs with hc
        · exact absurd (hc.1 ▸ hx) hnd.1
        · rfl
      rw [hz]
      simp
    · have hi2 : i ∈ as := by
        rcases List.mem_cons.1 hi with h | h
        · exact absurd h.symm hai
        · exact h
      rw [ih hnd.2 hi2]
      simp [hai]

/-- A triplet surviving the row-clearing pass whose row DOF is Dirichlet
carries value 0. -/
theorem mem_rowCleared_zero (dd : List ℕ) (l : List (ℕ × ℕ × ℚ)) (t : ℕ × ℕ × ℚ)
    (ht : t ∈ l.map (rowCleared dd)) (hti : t.1 ∈ dd) : t.2.2 = 0 := by
  rcases List.mem_map.1 ht with ⟨u, hu, rfl⟩
  by_cases h : u.1 ∈ dd
  · simp [rowCleared, h]
  · simp only [rowCleared, if_neg h] at hti ⊢
    exact absurd hti h

/-- The column-clearing pass preserves the row-zero property. -/
theorem mem_colCleared_row_zero (dd : List ℕ) (l : List (ℕ × ℕ × ℚ)) (t : ℕ × ℕ × ℚ)
    (ht : t ∈ l.map (colCleared dd)) (hl : ∀ u ∈ l, u.1 ∈ dd → u.2.2 = 0)
    (hti : t.1 ∈ dd) : t.2.2 = 0 := by
  rcases List.mem_map.1 ht with ⟨u, hu, rfl⟩
  by_cases h : u.2.1 ∈ dd
  · simp [colCleared, h]
  · simp only [colCleared, if_neg h] at hti ⊢
    exact hl u hu hti

/-- A triplet surviving the column-clearing pass whose column DOF is
Dirichlet carries value 0. -/
theorem mem_colCleared_col_zero (dd : List ℕ) (l : List (ℕ × ℕ × ℚ)) (t : ℕ × ℕ × ℚ)
    (ht : t ∈ l.map (colCleared dd)) (htj : t.2.1 ∈ dd) : t.2.2 = 0 := by
  rcases List.mem_map.1 ht with ⟨u, hu, rfl⟩
  by_cases h : u.2.1 ∈ dd
  · simp [colCleared, h]
  · simp only [colCleared, if_neg h] at htj
    exact absurd htj h

/-- With a nonempty Dirichlet DOF list and `dirichlet_clear_diag` left
False, the assembled triplets are the cleared local integrals followed by
the appended unit diagonal entries. -/
theorem dirichletTriplets_clearDiag_false (g : GridData) (dd : List ℕ)
    (vals : ℕ → ℕ → ℕ → ℚ) (clearColumns : Bool) (hne : dd.isEmpty = false) :
    dirichletTriplets g dd vals clearColumns false
      = (if clearColumns
          then ((baseTriplets g vals).map (rowCleared dd)).map (colCleared dd)
          else (baseTriplets g vals).map (rowCleared dd))
        ++ dd.map (fun x => (x, x, (1 : ℚ))) := by
  unfold dirichletTriplets
  rw [hne]
  rfl

/-- Claim C9: with Dirichlet DOFs present and `dirichlet_clear_diag` left
False, the assembled diffusion matrix has a unit row at every Dirichlet
DOF — 1 on the diagonal, 0 elsewhere in the row — and when
`dirichlet_clear_columns` is True the off-diagonal entries of the
corresponding column are zero as well. -/
theorem claimC9_dirichlet_unit_rows (g : GridData) (dd : List ℕ) (vals : ℕ → ℕ → ℕ → ℚ)
    (clearColumns : Bool) (hnd : dd.Nodup) (i : ℕ) (hi : i ∈ dd) :
    (∀ j, assembleDiffusion g dd vals clearColumns false i j = if j = i then 1 else 0) ∧
    (clearColumns = true → ∀ i2, i2 ≠ i →
      assembleDiffusion g dd vals clearColumns false i2 i = 0) := by
  have hne : dd.isEmpty = false := by
    cases dd with
    | nil => exact absurd hi (List.not_mem_nil i)
    | cons a as => rfl
  constructor
  · intro j
    rw [assembleDiffusion, dirichletTriplets_clearDiag_false g dd vals clearColumns hne,
      cooEntry_append]
    have hz : cooEntry (if clearColumns = true
        then ((baseTriplets g vals).map (rowCleared dd)).map (colCleared dd)
        else (baseTriplets g vals).map (rowCleared dd)) i j = 0 := by
      cases clearColumns with
      | false =>
        rw [if_neg (by simp)]
        exact cooEntry_eq_zero_row _ i j
          (fun t ht hti => mem_rowCleared_zero dd _ t ht (hti.symm ▸ hi))
      | true =>
        rw [if_pos rfl]
        exact cooEntry_eq_zero_row _ i j
          (fun t ht hti => mem_colCleared_row_zero dd _ t ht
            (fun u hu hud => mem_rowCleared_zero dd _ u hu hud) (hti.symm ▸ hi))
    rw [hz, zero_add]
    by_cases hij : j = i
    · subst hij
      rw [if_pos rfl]
      exact cooEntry_diag_self dd j hnd hi
    · rw [if_neg hij]
      exact cooEntry_diag_off dd i j (fun h => hij h.symm)
  · intro hcc i2 hi2
    rw [assembleDiffusion, dirichletTriplets_clearDiag_false g dd vals clearColumns hne,
      cooEntry_append, hcc, if_pos rfl]
    have hz : cooEntry (((baseTriplets g vals).map (rowCleared dd)).map (colCleared dd))
        i2 i = 0 :=
      cooEntry_eq_zero_col _ i2 i
        (fun t ht htj => mem_colCleared_col_zero dd _ t ht (htj.symm ▸ hi))
    rw [hz, zero_add]
    exact cooEntry_diag_off dd i2 i hi2

/-- Fixture: a one-element grid with two local and two global DOFs, the
identity local-to-global map. -/
def gW : GridData := ⟨1, 2, 2, fun _ p => p⟩

/-- Fixture: constant local integral values. -/
def valsW : ℕ → ℕ → ℕ → ℚ := fun _ _ _ => 5

/-- Witness for claim C9 on the one-element grid with Dirichlet DOF 1 and
column clearing enabled. -/
theorem claimC9_dirichlet_unit_rows_witness :
    assembleDiffusion gW [1] valsW true false 1 1 = 1 ∧
    assembleDiffusion gW [1] valsW true false 1 0 = 0 ∧
    assembleDiffusion gW [1] valsW true false 0 1 = 0 := by
  have h := claimC9_dirichlet_unit_rows gW [1] valsW true (by simp) 1 (by simp)
  refine ⟨?_, ?_, ?_⟩
  · simpa using h.1 1
  · simpa using h.1 0
  · exact h.2 rfl 0 (by decide)
